import Mathlib

/-!
Verification of the marketplace listing cache and sync layer declared in
`indra/newview/llmarketplacefunctions.h` (class `LLMarketplaceData`).

Identifiers: `LLUUID` is modelled as `Nat` (only equality matters), with
`0` standing for the null UUID; `S32` listing ids are modelled as `Int`,
with `0` the "unknown listing id" sentinel.  The `std::map` cache is
modelled as an association list of tuples keyed by `mListingFolderId`.

Method bodies that are inline in the header (`checkDirtyCount`,
`setDirtyCount`, the global `setUpdating`, `getSLMStatus`, `isEmpty`) are
translated directly from the source; methods whose implementation file is
not part of the sources are modelled from the specification and marked as
such in their doc comments.
-/

namespace Marketplace

abbrev LLUUID := Nat

/-- The null `LLUUID`, returned by accessors as the unset sentinel. -/
def nullUUID : LLUUID := 0

namespace MarketplaceErrorCodes

/-- `MarketplaceErrorCodes::eCode`, from the source header. -/
def IMPORT_DONE : Nat := 200
def IMPORT_PROCESSING : Nat := 202
def IMPORT_REDIRECT : Nat := 302
def IMPORT_BAD_REQUEST : Nat := 400
def IMPORT_AUTHENTICATION_ERROR : Nat := 401
def IMPORT_FORBIDDEN : Nat := 403
def IMPORT_NOT_FOUND : Nat := 404
def IMPORT_DONE_WITH_ERRORS : Nat := 409
def IMPORT_JOB_FAILED : Nat := 410
def IMPORT_JOB_TIMEOUT : Nat := 499
def IMPORT_SERVER_SITE_DOWN : Nat := 500
def IMPORT_SERVER_API_DISABLED : Nat := 503

/-- The values of the `MarketplaceErrorCodes::eCode` enum, in source order. -/
def importCodeValues : List Nat :=
  [IMPORT_DONE, IMPORT_PROCESSING, IMPORT_REDIRECT, IMPORT_BAD_REQUEST,
   IMPORT_AUTHENTICATION_ERROR, IMPORT_FORBIDDEN, IMPORT_NOT_FOUND,
   IMPORT_DONE_WITH_ERRORS, IMPORT_JOB_FAILED, IMPORT_JOB_TIMEOUT,
   IMPORT_SERVER_SITE_DOWN, IMPORT_SERVER_API_DISABLED]

end MarketplaceErrorCodes

namespace SLMErrorCodes

/-- `SLMErrorCodes::eCode`, from the source header. -/
def SLM_SUCCESS : Nat := 200
def SLM_RECORD_CREATED : Nat := 201
def SLM_MALFORMED_PAYLOAD : Nat := 400
def SLM_NOT_FOUND : Nat := 404

/-- The values of the `SLMErrorCodes::eCode` enum, in source order. -/
def slmCodeValues : List Nat :=
  [SLM_SUCCESS, SLM_RECORD_CREATED, SLM_MALFORMED_PAYLOAD, SLM_NOT_FOUND]

end SLMErrorCodes

/-- Every remote status code the driver handles: the union of the two
status-code enums declared in the source header. -/
def handledCodes : List Nat :=
  MarketplaceErrorCodes.importCodeValues ++ SLMErrorCodes.slmCodeValues

/-- Modelled from the spec: the **success** outcome class of the status-code
taxonomy "200 done, 201 created, 202 processing-still-pending".  The
response-handling code itself is not among the sources, only the enums. -/
def isSuccessOutcome (c : Nat) : Bool :=
  c == 200 || c == 201 || c == 202

/-- Modelled from the spec: the **client error** outcome class
"400 malformed, 401/403 auth, 404 not found". -/
def isClientErrorOutcome (c : Nat) : Bool :=
  c == 400 || c == 401 || c == 403 || c == 404

/-- Modelled from the spec: the **transient server/job error** outcome class
"409 partial failure, 410 job failed, 499 timeout, 500/503 server down". -/
def isServerErrorOutcome (c : Nat) : Bool :=
  c == 409 || c == 410 || c == 499 || c == 500 || c == 503

/-- How many of the three outcome classes a status code belongs to. -/
def outcomeClassCount (c : Nat) : Nat :=
  (isSuccessOutcome c).toNat + (isClientErrorOutcome c).toNat
    + (isServerErrorOutcome c).toNat

/-- C1, counterexample: the source header also declares
`IMPORT_REDIRECT = 302` among the handled status codes, and 302 belongs to
none of the three outcome classes, refuting "no handled status code lies
outside these three classes". -/
theorem c1_counterexample_redirect :
    MarketplaceErrorCodes.IMPORT_REDIRECT ∈ handledCodes ∧
      outcomeClassCount MarketplaceErrorCodes.IMPORT_REDIRECT = 0 := by
  decide

/-- C1 (amended): every status code declared in the two status-code enums,
except the redirect code `IMPORT_REDIRECT = 302`, falls into exactly one of
the three outcome classes (success 200/201/202, client error
400/401/403/404, transient server/job error 409/410/499/500/503). -/
theorem c1_amended_outcome_classes (c : Nat) (hc : c ∈ handledCodes)
    (hr : c ≠ MarketplaceErrorCodes.IMPORT_REDIRECT) :
    outcomeClassCount c = 1 := by
  have h : ∀ x ∈ handledCodes, x ≠ MarketplaceErrorCodes.IMPORT_REDIRECT →
      outcomeClassCount x = 1 := by decide
  exact h c hc hr

/-- C1 witness: the amended classification at the concrete code 200. -/
theorem c1_amended_outcome_classes_witness :
    outcomeClassCount 200 = 1 :=
  c1_amended_outcome_classes 200 (by decide) (by decide)

/-- `LLMarketplaceTuple`, from the source header: one reconciled record of
the marketplace cache. -/
structure LLMarketplaceTuple where
  mListingFolderId : LLUUID
  mListingId : Int
  mVersionFolderId : LLUUID
  mIsActive : Bool
  mEditURL : String
deriving DecidableEq

/-- `marketplace_items_list_t`: the `std::map<LLUUID, LLMarketplaceTuple>`
cache, modelled as an association list keyed by `mListingFolderId`. -/
abbrev MarketplaceItemsList := List LLMarketplaceTuple

/-- First record of the cache keyed by `folder_id`, if any (the
`mMarketplaceItems.find(folder_id)` idiom of the source). -/
def findTuple (cache : MarketplaceItemsList) (folder_id : LLUUID) :
    Option LLMarketplaceTuple :=
  cache.find? (fun t => t.mListingFolderId == folder_id)

/-- Modelled from the spec (the implementation file of
`LLMarketplaceData::isListed` is not among the sources): true iff a record
exists keyed by `folder_id`. -/
def isListed (cache : MarketplaceItemsList) (folder_id : LLUUID) : Bool :=
  (findTuple cache folder_id).isSome

/-- Modelled from the spec (implementation file missing): returns the
record's active flag, defaulting to `false` when the argument can't be
found, as the source comment on the accessor block requires. -/
def getActivationState (cache : MarketplaceItemsList) (folder_id : LLUUID) :
    Bool :=
  match findTuple cache folder_id with
  | some t => t.mIsActive
  | none => false

/-- Modelled from the spec (implementation file missing): returns the
record's listing id, defaulting to the unset sentinel `0`. -/
def getListingID (cache : MarketplaceItemsList) (folder_id : LLUUID) : Int :=
  match findTuple cache folder_id with
  | some t => t.mListingId
  | none => 0

/-- Modelled from the spec (implementation file missing): returns the
record's version folder, defaulting to the null UUID. -/
def getVersionFolder (cache : MarketplaceItemsList) (folder_id : LLUUID) :
    LLUUID :=
  match findTuple cache folder_id with
  | some t => t.mVersionFolderId
  | none => nullUUID

/-- Modelled from the spec (implementation file missing): returns the
record's edit URL, defaulting to the empty string. -/
def getListingURL (cache : MarketplaceItemsList) (folder_id : LLUUID) :
    String :=
  match findTuple cache folder_id with
  | some t => t.mEditURL
  | none => ""

/-- Modelled from the spec (implementation file missing): the reverse
lookup `listing_id → listing_folder_id`, scanning the cache for a record
carrying `listing_id` and returning the null UUID when none does. -/
def getListingFolder (cache : MarketplaceItemsList) (listing_id : Int) :
    LLUUID :=
  match cache.find? (fun t => t.mListingId == listing_id) with
  | some t => t.mListingFolderId
  | none => nullUUID

/-- Modelled from the spec (implementation file missing):
`is_listed_and_active(folder_id)`, answered in a single cache scan — a
record keyed by `folder_id` exists and its active flag is set. -/
def isListedAndActive (cache : MarketplaceItemsList) (folder_id : LLUUID) :
    Bool :=
  match findTuple cache folder_id with
  | some t => t.mIsActive
  | none => false

/-- C8: `isListedAndActive(folder_id)` is true exactly when
`isListed(folder_id)` holds and the record's active flag
(`getActivationState(folder_id)`) is true. -/
theorem c8_isListedAndActive_conj (cache : MarketplaceItemsList)
    (folder_id : LLUUID) :
    isListedAndActive cache folder_id =
      (isListed cache folder_id && getActivationState cache folder_id) := by
  unfold isListedAndActive isListed getActivationState
  cases findTuple cache folder_id <;> simp

/-- C10: on a folder id with no cache record every accessor returns its
unset sentinel — activation state `false`, listing id `0`, version folder
the null UUID, listing URL the empty string — and `getListingFolder`
returns the null UUID for a listing id no record carries. -/
theorem c10_accessor_defaults (cache : MarketplaceItemsList)
    (folder_id : LLUUID) (listing_id : Int)
    (hf : isListed cache folder_id = false)
    (hl : ∀ t ∈ cache, t.mListingId ≠ listing_id) :
    getActivationState cache folder_id = false ∧
      getListingID cache folder_id = 0 ∧
      getVersionFolder cache folder_id = nullUUID ∧
      getListingURL cache folder_id = "" ∧
      getListingFolder cache listing_id = nullUUID := by
  have hnone : findTuple cache folder_id = none := by
    unfold isListed at hf
    cases h : findTuple cache folder_id with
    | none => rfl
    | some t => rw [h] at hf; simp at hf
  have hfind : cache.find? (fun t => t.mListingId == listing_id) = none := by
    rw [List.find?_eq_none]
    intro t ht
    simpa using hl t ht
  unfold getActivationState getListingID getVersionFolder getListingURL
    getListingFolder
  rw [hnone, hfind]
  simp

/-- C10 witness: the accessor defaults on a concrete one-record cache, at a
folder id and a listing id the record does not carry. -/
theorem c10_accessor_defaults_witness :
    getActivationState [⟨1, 42, 2, true, "u"⟩] 3 = false ∧
      getListingID [⟨1, 42, 2, true, "u"⟩] 3 = 0 ∧
      getVersionFolder [⟨1, 42, 2, true, "u"⟩] 3 = nullUUID ∧
      getListingURL [⟨1, 42, 2, true, "u"⟩] 3 = "" ∧
      getListingFolder [⟨1, 42, 2, true, "u"⟩] 7 = nullUUID :=
  c10_accessor_defaults [⟨1, 42, 2, true, "u"⟩] 3 7 (by decide) (by decide)

/-- Modelled from the spec (implementation file missing):
`upsert(folder_id, listing_id, version_folder_id, is_active)` — inserts or
replaces the record for `folder_id`, overwriting every field and defaulting
the unknown edit URL to its unset sentinel (this is the cache write behind
`addListing` and the reconciliation steps). -/
def upsert (cache : MarketplaceItemsList) (folder_id : LLUUID)
    (listing_id : Int) (version_id : LLUUID) (is_active : Bool) :
    MarketplaceItemsList :=
  match cache with
  | [] => [⟨folder_id, listing_id, version_id, is_active, ""⟩]
  | t :: rest =>
    if t.mListingFolderId == folder_id then
      ⟨folder_id, listing_id, version_id, is_active, ""⟩ :: rest
    else
      t :: upsert rest folder_id listing_id version_id is_active

/-- Modelled from the spec (implementation file missing): the record
removal behind `deleteListing` — drops the record keyed by `folder_id`. -/
def removeListing (cache : MarketplaceItemsList) (folder_id : LLUUID) :
    MarketplaceItemsList :=
  cache.filter (fun t => t.mListingFolderId != folder_id)

/-- Modelled from the spec (implementation file missing):
`deleteListing(folder_id)` — removes the record and reports whether one
existed. -/
def deleteListing (cache : MarketplaceItemsList) (folder_id : LLUUID) :
    Bool × MarketplaceItemsList :=
  (isListed cache folder_id, removeListing cache folder_id)

/-- Modelled from the spec (implementation file missing):
`setListingID(folder_id, listing_id)` — mutates the listing id of an
existing record, reported as failure when no record exists. -/
def setListingID (cache : MarketplaceItemsList) (folder_id : LLUUID)
    (listing_id : Int) : Bool × MarketplaceItemsList :=
  if isListed cache folder_id then
    (true, cache.map (fun t =>
      if t.mListingFolderId == folder_id then
        { t with mListingId := listing_id } else t))
  else (false, cache)

/-- The uniqueness invariant of C2: any two records carrying the same known
(nonzero) listing id agree on the listing folder. -/
def listingIdUnique (cache : MarketplaceItemsList) : Prop :=
  ∀ t1 ∈ cache, ∀ t2 ∈ cache, t1.mListingId ≠ 0 →
    t1.mListingId = t2.mListingId →
    t1.mListingFolderId = t2.mListingFolderId

instance (cache : MarketplaceItemsList) :
    Decidable (listingIdUnique cache) := by
  unfold listingIdUnique
  infer_instance

/-- The guard under which a mutation keeps listing ids unique: the supplied
listing id is the unset sentinel, or no record of a different folder
already carries it. -/
def listingIdFree (cache : MarketplaceItemsList) (folder_id : LLUUID)
    (listing_id : Int) : Bool :=
  listing_id == 0 ||
    cache.all (fun t =>
      t.mListingId != listing_id || t.mListingFolderId == folder_id)

theorem listingIdFree_spec {cache : MarketplaceItemsList}
    {folder_id : LLUUID} {listing_id : Int}
    (h : listingIdFree cache folder_id listing_id = true) :
    listing_id = 0 ∨ ∀ t ∈ cache, t.mListingId = listing_id →
      t.mListingFolderId = folder_id := by
  unfold listingIdFree at h
  simp only [Bool.or_eq_true, beq_iff_eq, List.all_eq_true, bne_iff_ne,
    ne_eq] at h
  rcases h with h | h
  · exact Or.inl h
  · refine Or.inr (fun t ht hid => ?_)
    rcases h t ht with h2 | h2
    · exact absurd hid h2
    · exact h2

theorem mem_of_mem_upsert {cache : MarketplaceItemsList}
    {folder_id : LLUUID} {listing_id : Int} {version_id : LLUUID}
    {is_active : Bool} {t : LLMarketplaceTuple}
    (h : t ∈ upsert cache folder_id listing_id version_id is_active) :
    t = ⟨folder_id, listing_id, version_id, is_active, ""⟩ ∨ t ∈ cache := by
  induction cache with
  | nil =>
    simp [upsert] at h
    exact Or.inl h
  | cons hd tl ih =>
    cases hc : (hd.mListingFolderId == folder_id) with
    | true =>
      simp only [upsert, hc, if_true, List.mem_cons] at h
      rcases h with h | h
      · exact Or.inl h
      · exact Or.inr (List.mem_cons_of_mem hd h)
    | false =>
      simp only [upsert, hc, Bool.false_eq_true, if_false,
        List.mem_cons] at h
      rcases h with h | h
      · exact Or.inr (h ▸ List.mem_cons_self hd tl)
      · rcases ih h with h2 | h2
        · exact Or.inl h2
        · exact Or.inr (List.mem_cons_of_mem hd h2)

theorem mem_of_mem_setListingID {cache : MarketplaceItemsList}
    {folder_id : LLUUID} {listing_id : Int} {t : LLMarketplaceTuple}
    (h : t ∈ (setListingID cache folder_id listing_id).2) :
    t ∈ cache ∨
      (t.mListingFolderId = folder_id ∧ t.mListingId = listing_id) := by
  unfold setListingID at h
  cases hl : isListed cache folder_id with
  | false => rw [hl] at h; simp at h; exact Or.inl h
  | true =>
    rw [hl] at h
    simp only [if_true, List.mem_map] at h
    rcases h with ⟨t0, ht0, heq⟩
    cases hc : (t0.mListingFolderId == folder_id) with
    | true =>
      rw [hc] at heq
      simp only [if_true] at heq
      refine Or.inr ?_
      rw [← heq]
      exact ⟨by simpa using (beq_iff_eq.mp hc), rfl⟩
    | false =>
      rw [hc] at heq
      simp only [Bool.false_eq_true, if_false] at heq
      exact Or.inl (heq ▸ ht0)

/-- C2, counterexample: the cache-level mutations do not enforce listing-id
uniqueness — two upserts with the same nonzero listing id on different
folders leave two records both carrying listing id 42, and the reverse
lookup then silently answers the first of them. -/
theorem c2_counterexample_duplicate_listing_id :
    ¬ listingIdUnique (upsert (upsert [] 1 42 nullUUID true) 2 42 nullUUID
      true) ∧
      isListed (upsert (upsert [] 1 42 nullUUID true) 2 42 nullUUID true)
        2 = true ∧
      getListingID (upsert (upsert [] 1 42 nullUUID true) 2 42 nullUUID
        true) 2 = 42 ∧
      getListingFolder (upsert (upsert [] 1 42 nullUUID true) 2 42 nullUUID
        true) 42 = 1 := by
  refine ⟨fun h => ?_, by decide, by decide, by decide⟩
  have := h ⟨1, 42, nullUUID, true, ""⟩ (by decide) ⟨2, 42, nullUUID, true,
    ""⟩ (by decide) (by decide) (by decide)
  simp at this

/-- C2 (amended): listing-id uniqueness is not maintained by the cache
mutations unconditionally; it is an inductive invariant under
`deleteListing`/remove and under `addListing`/upsert and `setListingID`
restricted to listing ids that are the unset sentinel or not already bound
to a different folder — and on a cache satisfying it, the reverse lookup
`getListingFolder` is unambiguous: it answers each record's own folder. -/
theorem c2_amended_uniqueness_invariant (cache : MarketplaceItemsList)
    (folder_id : LLUUID) (listing_id : Int) (version_id : LLUUID)
    (is_active : Bool) (t : LLMarketplaceTuple)
    (hu : listingIdUnique cache) :
    (listingIdFree cache folder_id listing_id = true →
      listingIdUnique (upsert cache folder_id listing_id version_id
        is_active)) ∧
    listingIdUnique (removeListing cache folder_id) ∧
    (listingIdFree cache folder_id listing_id = true →
      listingIdUnique (setListingID cache folder_id listing_id).2) ∧
    (t ∈ cache → t.mListingId ≠ 0 →
      getListingFolder cache t.mListingId = t.mListingFolderId) := by
  refine ⟨?_, ?_, ?_, ?_⟩
  · intro hfree t1 h1 t2 h2 hne hid
    rcases listingIdFree_spec hfree with h0 | hbound
    · rcases mem_of_mem_upsert h1 with e1 | m1
      · rw [e1] at hne; simp [h0] at hne
      · rcases mem_of_mem_upsert h2 with e2 | m2
        · exfalso
          rw [e2] at hid
          simp only at hid
          rw [hid, h0] at hne
          exact hne rfl
        · exact hu t1 m1 t2 m2 hne hid
    · rcases mem_of_mem_upsert h1 with e1 | m1
      · rcases mem_of_mem_upsert h2 with e2 | m2
        · rw [e1, e2]
        · rw [e1]
          rw [e1] at hid
          simp only at hid
          exact (hbound t2 m2 hid.symm).symm
      · rcases mem_of_mem_upsert h2 with e2 | m2
        · rw [e2]
          rw [e2] at hid
          simp only at hid
          exact hbound t1 m1 hid
        · exact hu t1 m1 t2 m2 hne hid
  · intro t1 h1 t2 h2 hne hid
    exact hu t1 (List.mem_of_mem_filter h1) t2 (List.mem_of_mem_filter h2)
      hne hid
  · intro hfree t1 h1 t2 h2 hne hid
    rcases listingIdFree_spec hfree with h0 | hbound
    · rcases mem_of_mem_setListingID h1 with m1 | ⟨f1, i1⟩
      · rcases mem_of_mem_setListingID h2 with m2 | ⟨f2, i2⟩
        · exact hu t1 m1 t2 m2 hne hid
        · exfalso; rw [hid, i2, h0] at hne; exact hne rfl
      · exfalso; rw [i1, h0] at hne; exact hne rfl
    · rcases mem_of_mem_setListingID h1 with m1 | ⟨f1, i1⟩
      · rcases mem_of_mem_setListingID h2 with m2 | ⟨f2, i2⟩
        · exact hu t1 m1 t2 m2 hne hid
        · rw [f2]
          exact hbound t1 m1 (by rw [hid, i2])
      · rcases mem_of_mem_setListingID h2 with m2 | ⟨f2, i2⟩
        · rw [f1]
          exact (hbound t2 m2 (by rw [← hid, i1])).symm
        · rw [f1, f2]
  · intro ht hne
    cases hfind : cache.find? (fun t2 => t2.mListingId == t.mListingId) with
    | none =>
      exfalso
      rw [List.find?_eq_none] at hfind
      exact hfind t ht (by simp)
    | some t2 =>
      have hmem := List.mem_of_find?_eq_some hfind
      have hp : t2.mListingId = t.mListingId := by
        simpa using List.find?_some hfind
      unfold getListingFolder
      rw [hfind]
      exact hu t2 hmem t ht (hp ▸ hne) hp

/-- C2 witness: the amended invariant exercised on a concrete one-record
cache, an upsert guard, and that record's reverse lookup. -/
theorem c2_amended_uniqueness_invariant_witness :
    listingIdUnique (upsert [⟨1, 42, nullUUID, true, ""⟩] 2 7 nullUUID
      false) ∧
      getListingFolder [⟨1, 42, nullUUID, true, ""⟩] 42 = 1 := by
  have h := c2_amended_uniqueness_invariant [⟨1, 42, nullUUID, true, ""⟩]
    2 7 nullUUID false ⟨1, 42, nullUUID, true, ""⟩ (by decide)
  refine ⟨h.1 (by decide), ?_⟩
  have h4 := h.2.2.2 (by decide) (by decide)
  simpa using h4

theorem isListed_upsert_self (cache : MarketplaceItemsList)
    (folder_id : LLUUID) (listing_id : Int) (version_id : LLUUID)
    (is_active : Bool) :
    isListed (upsert cache folder_id listing_id version_id is_active)
      folder_id = true := by
  induction cache with
  | nil => simp [upsert, isListed, findTuple]
  | cons hd tl ih =>
    cases hc : (hd.mListingFolderId == folder_id) with
    | true => simp [upsert, hc, isListed, findTuple]
    | false =>
      simp only [upsert, hc, Bool.false_eq_true, if_false]
      simpa [isListed, findTuple, List.find?, hc] using ih

theorem isListed_upsert_mono {cache : MarketplaceItemsList} {x : LLUUID}
    (folder_id : LLUUID) (listing_id : Int) (version_id : LLUUID)
    (is_active : Bool) (h : isListed cache x = true) :
    isListed (upsert cache folder_id listing_id version_id is_active) x =
      true := by
  induction cache with
  | nil => simp [isListed, findTuple] at h
  | cons hd tl ih =>
    cases hc : (hd.mListingFolderId == folder_id) with
    | true =>
      simp only [upsert, hc, if_true]
      cases hx : (hd.mListingFolderId == x) with
      | true =>
        have : folder_id = x := by
          rw [← beq_iff_eq.mp hc]; exact beq_iff_eq.mp hx
        simp [isListed, findTuple, List.find?, this]
      | false =>
        have hrest : isListed tl x = true := by
          simpa [isListed, findTuple, List.find?, hx] using h
        have hfx : (folder_id == x) = false := by
          rw [← beq_iff_eq.mp hc]; exact hx
        simpa [isListed, findTuple, List.find?, hfx] using hrest
    | false =>
      simp only [upsert, hc, Bool.false_eq_true, if_false]
      cases hx : (hd.mListingFolderId == x) with
      | true => simp [isListed, findTuple, List.find?, hx]
      | false =>
        have hrest : isListed tl x = true := by
          simpa [isListed, findTuple, List.find?, hx] using h
        simpa [isListed, findTuple, List.find?, hx] using ih hrest

/-- Modelled from the spec (implementation file missing): the
`getSLMListings` / `get_all_listings` full-refresh reconciliation — every
listing tuple of the server response is upserted into the cache, in
response order; nothing is removed. -/
def getSLMListings (cache : MarketplaceItemsList)
    (server : List LLMarketplaceTuple) : MarketplaceItemsList :=
  server.foldl (fun c r =>
    upsert c r.mListingFolderId r.mListingId r.mVersionFolderId
      r.mIsActive) cache

theorem isListed_getSLMListings_mono {x : LLUUID}
    (server : List LLMarketplaceTuple) :
    ∀ cache : MarketplaceItemsList, isListed cache x = true →
      isListed (getSLMListings cache server) x = true := by
  induction server with
  | nil => intro cache h; simpa [getSLMListings] using h
  | cons hd tl ih =>
    intro cache h
    simp only [getSLMListings, List.foldl_cons]
    exact ih _ (isListed_upsert_mono hd.mListingFolderId hd.mListingId
      hd.mVersionFolderId hd.mIsActive h)

/-- C3: after the full-refresh merge, every listing of the server response
is present in the cache, and every record present before the refresh is
still present — the merge is additive and non-destructive, removal being
left to the explicit `deleteListing`. -/
theorem c3_full_refresh_merge (cache : MarketplaceItemsList)
    (server : List LLMarketplaceTuple) (t : LLMarketplaceTuple) :
    (t ∈ server →
      isListed (getSLMListings cache server) t.mListingFolderId = true) ∧
    (t ∈ cache →
      isListed (getSLMListings cache server) t.mListingFolderId = true) := by
  constructor
  · induction server generalizing cache with
    | nil => intro ht; simp at ht
    | cons hd tl ih =>
      intro ht
      simp only [getSLMListings, List.foldl_cons]
      rcases List.mem_cons.mp ht with h | h
      · rw [h]
        exact isListed_getSLMListings_mono tl _
          (isListed_upsert_self cache hd.mListingFolderId hd.mListingId
            hd.mVersionFolderId hd.mIsActive)
      · exact ih _ h
  · intro ht
    refine isListed_getSLMListings_mono server cache ?_
    unfold isListed findTuple
    cases hfind : cache.find? (fun r => r.mListingFolderId ==
        t.mListingFolderId) with
    | none =>
      exfalso
      rw [List.find?_eq_none] at hfind
      exact hfind t ht (by simp)
    | some r => rfl

/-- C3 witness: the non-destructive-merge scenario of the spec — the server
returns only folder 1 (listing 42) while the cache also holds folder 3
(listing 99); after the merge both are listed. -/
theorem c3_full_refresh_merge_witness :
    isListed (getSLMListings [⟨3, 99, nullUUID, true, ""⟩]
      [⟨1, 42, nullUUID, true, ""⟩]) 1 = true ∧
    isListed (getSLMListings [⟨3, 99, nullUUID, true, ""⟩]
      [⟨1, 42, nullUUID, true, ""⟩]) 3 = true :=
  ⟨(c3_full_refresh_merge [⟨3, 99, nullUUID, true, ""⟩]
      [⟨1, 42, nullUUID, true, ""⟩] ⟨1, 42, nullUUID, true, ""⟩).1
      (by decide),
   (c3_full_refresh_merge [⟨3, 99, nullUUID, true, ""⟩]
      [⟨1, 42, nullUUID, true, ""⟩] ⟨3, 99, nullUUID, true, ""⟩).2
      (by decide)⟩

namespace MarketplaceStatusCodes

/-- `MarketplaceStatusCodes::sCode`, from the source header. -/
def MARKET_PLACE_NOT_INITIALIZED : Nat := 0
def MARKET_PLACE_INITIALIZING : Nat := 1
def MARKET_PLACE_CONNECTION_FAILURE : Nat := 2
def MARKET_PLACE_MERCHANT : Nat := 3
def MARKET_PLACE_NOT_MERCHANT : Nat := 4

/-- The values of the `MarketplaceStatusCodes::sCode` enum, in source
order. -/
def statusCodeValues : List Nat :=
  [MARKET_PLACE_NOT_INITIALIZED, MARKET_PLACE_INITIALIZING,
   MARKET_PLACE_CONNECTION_FAILURE, MARKET_PLACE_MERCHANT,
   MARKET_PLACE_NOT_MERCHANT]

end MarketplaceStatusCodes

/-- The state of the `LLMarketplaceData` singleton: the fields declared in
the source header (signals and the inventory observer, pure notification
plumbing, are not modelled). -/
structure LLMarketplaceData where
  mMarketPlaceStatus : Nat
  mDirtyCount : Bool
  mIsUpdating : Bool
  mPendingUpdateSet : List LLUUID
  mMarketplaceItems : MarketplaceItemsList
deriving DecidableEq

/-- `checkDirtyCount`, translated from its inline body in the source
header: `if (mDirtyCount) { mDirtyCount = false; return true; } else
{ return false; }`. -/
def checkDirtyCount (s : LLMarketplaceData) : Bool × LLMarketplaceData :=
  if s.mDirtyCount then (true, { s with mDirtyCount := false })
  else (false, s)

/-- `setDirtyCount`, translated from its inline body in the source
header. -/
def setDirtyCount (s : LLMarketplaceData) : LLMarketplaceData :=
  { s with mDirtyCount := true }

/-- The global `setUpdating(bool)`, translated from its inline body in the
source header. -/
def setUpdating (s : LLMarketplaceData) (u : Bool) : LLMarketplaceData :=
  { s with mIsUpdating := u }

/-- `getSLMStatus`, translated from its inline body in the source
header. -/
def getSLMStatus (s : LLMarketplaceData) : Nat := s.mMarketPlaceStatus

/-- `isEmpty`, translated from its inline body in the source header. -/
def isEmpty (s : LLMarketplaceData) : Bool :=
  s.mMarketplaceItems.length == 0

/-- Modelled from the spec (implementation file missing): `setSLMStatus`,
the driver-private status write. -/
def setSLMStatus (s : LLMarketplaceData) (status : Nat) :
    LLMarketplaceData :=
  { s with mMarketPlaceStatus := status }

/-- Modelled from the spec (implementation file missing): the per-folder
`setUpdating(folder_id, bool)` — `begin` inserts the folder id into the
`std::set` pending set, a no-op if already present; `end` erases it. -/
def setUpdatingFolder (s : LLMarketplaceData) (folder_id : LLUUID)
    (u : Bool) : LLMarketplaceData :=
  if u then
    if s.mPendingUpdateSet.contains folder_id then s
    else { s with mPendingUpdateSet := folder_id :: s.mPendingUpdateSet }
  else
    { s with mPendingUpdateSet := s.mPendingUpdateSet.erase folder_id }

/-- Modelled from the spec (implementation file missing):
`isUpdating(folder_id)` — true iff the global bulk-update flag is set or
`folder_id` is in the pending set. -/
def isUpdating (s : LLMarketplaceData) (folder_id : LLUUID) : Bool :=
  s.mIsUpdating || s.mPendingUpdateSet.contains folder_id

/-- The remote calls the driver can issue, one constructor per request of
the private SLM API. -/
inductive RemoteCall where
  | createCall : LLUUID → RemoteCall
  | fetchOneCall : Int → RemoteCall
  | fetchAllCall : RemoteCall
  | updateCall : LLUUID → Int → LLUUID → Bool → RemoteCall
  | associateCall : LLUUID → Int → LLUUID → RemoteCall
  | deleteCall : Int → RemoteCall
deriving DecidableEq

/-- Modelled from the spec (implementation file missing):
`associateListing(folder_id, listing_id)` — fails synchronously, with no
remote call and no state change, when a record for `folder_id` already
exists, when `listing_id` is already bound, or when the folder is busy;
otherwise marks the folder pending and issues the associate request. -/
def associateListing (s : LLMarketplaceData) (folder_id : LLUUID)
    (listing_id : Int) : Bool × LLMarketplaceData × List RemoteCall :=
  if isListed s.mMarketplaceItems folder_id then (false, s, [])
  else if getListingFolder s.mMarketplaceItems listing_id != nullUUID then
    (false, s, [])
  else if isUpdating s folder_id then (false, s, [])
  else
    (true, setUpdatingFolder s folder_id true,
      [RemoteCall.associateCall folder_id listing_id
        (getVersionFolder s.mMarketplaceItems folder_id)])

/-- Modelled from the spec (implementation file missing):
`activateListing(folder_id, activate)` — fails synchronously when no record
exists or the folder is busy; otherwise marks the folder pending and issues
the update request. -/
def activateListing (s : LLMarketplaceData) (folder_id : LLUUID)
    (activate : Bool) : Bool × LLMarketplaceData × List RemoteCall :=
  if !isListed s.mMarketplaceItems folder_id then (false, s, [])
  else if isUpdating s folder_id then (false, s, [])
  else
    (true, setUpdatingFolder s folder_id true,
      [RemoteCall.updateCall folder_id
        (getListingID s.mMarketplaceItems folder_id)
        (getVersionFolder s.mMarketplaceItems folder_id) activate])

/-- C5: `checkDirtyCount` is one-shot edge-triggered — it returns the prior
flag value, leaves the flag clear afterwards in either case, and a second
consecutive call therefore returns `false` and keeps the flag clear. -/
theorem c5_checkDirtyCount_one_shot (s : LLMarketplaceData) :
    (checkDirtyCount s).1 = s.mDirtyCount ∧
      (checkDirtyCount s).2.mDirtyCount = false ∧
      (checkDirtyCount (checkDirtyCount s).2).1 = false ∧
      (checkDirtyCount (checkDirtyCount s).2).2.mDirtyCount = false := by
  cases h : s.mDirtyCount <;> simp [checkDirtyCount, h]

/-- C6: `isUpdating(folder_id)` is true exactly when `folder_id` is in the
per-folder pending set or the global bulk-update flag is set. -/
theorem c6_isUpdating_iff (s : LLMarketplaceData) (folder_id : LLUUID) :
    isUpdating s folder_id = true ↔
      folder_id ∈ s.mPendingUpdateSet ∨ s.mIsUpdating = true := by
  unfold isUpdating
  rw [Bool.or_eq_true]
  constructor
  · rintro (h | h)
    · exact Or.inr h
    · exact Or.inl (by simpa using h)
  · rintro (h | h)
    · exact Or.inr (by simpa using h)
    · exact Or.inl h

/-- C7: marking pending is idempotent — two `setUpdating(folder_id, true)`
calls leave the pending set holding `folder_id` exactly once — and while
`folder_id` is pending a high-level operation targeting it
(`activateListing`) is rejected as busy with no remote call and no state
change; once the pending entry is cleared the same operation succeeds. -/
theorem c7_pending_idempotent_and_busy (s : LLMarketplaceData)
    (folder_id : LLUUID) (activate : Bool)
    (hnd : s.mPendingUpdateSet.Nodup)
    (hl : isListed s.mMarketplaceItems folder_id = true)
    (hg : s.mIsUpdating = false) :
    (setUpdatingFolder (setUpdatingFolder s folder_id true) folder_id
        true).mPendingUpdateSet.count folder_id = 1 ∧
    (folder_id ∈ s.mPendingUpdateSet →
      activateListing s folder_id activate = (false, s, [])) ∧
    (activateListing (setUpdatingFolder s folder_id false) folder_id
        activate).1 = true := by
  refine ⟨?_, ?_, ?_⟩
  · cases hc : s.mPendingUpdateSet.contains folder_id with
    | true =>
      simp only [setUpdatingFolder, if_true, hc]
      exact List.count_eq_one_of_mem hnd (by simpa using hc)
    | false =>
      have hnm : folder_id ∉ s.mPendingUpdateSet := by simpa using hc
      simp only [setUpdatingFolder, if_true, hc, Bool.false_eq_true,
        if_false]
      have hc2 : (folder_id :: s.mPendingUpdateSet).contains folder_id =
          true := by simp
      simp only [hc2, if_true, List.count_cons_self,
        List.count_eq_zero.mpr hnm]
  · intro hmem
    have hb : isUpdating s folder_id = true := by
      unfold isUpdating
      simp [hmem]
    unfold activateListing
    rw [hl, hb]
    simp
  · have hcache : (setUpdatingFolder s folder_id
        false).mMarketplaceItems = s.mMarketplaceItems := by
      simp [setUpdatingFolder]
    have hflag : (setUpdatingFolder s folder_id false).mIsUpdating =
        s.mIsUpdating := by
      simp [setUpdatingFolder]
    have hnm : folder_id ∉ (setUpdatingFolder s folder_id
        false).mPendingUpdateSet := by
      simp only [setUpdatingFolder, Bool.false_eq_true, if_false]
      intro hm
      rw [hnd.mem_erase_iff] at hm
      exact hm.1 rfl
    have hb : isUpdating (setUpdatingFolder s folder_id false) folder_id =
        false := by
      unfold isUpdating
      rw [hflag, hg]
      simpa using hnm
    unfold activateListing
    rw [hcache, hl, hb]
    simp

/-- C7 witness: the idempotent-marking, busy-rejection and
retry-after-clear behaviour on a concrete state whose pending set already
holds folder 5. -/
theorem c7_pending_idempotent_and_busy_witness :
    (setUpdatingFolder (setUpdatingFolder ⟨0, false, false, [5],
        [⟨5, 42, nullUUID, true, ""⟩]⟩ 5 true) 5
        true).mPendingUpdateSet.count 5 = 1 ∧
    activateListing ⟨0, false, false, [5], [⟨5, 42, nullUUID, true, ""⟩]⟩
        5 true = (false, ⟨0, false, false, [5],
        [⟨5, 42, nullUUID, true, ""⟩]⟩, []) ∧
    (activateListing (setUpdatingFolder ⟨0, false, false, [5],
        [⟨5, 42, nullUUID, true, ""⟩]⟩ 5 false) 5 true).1 = true := by
  have h := c7_pending_idempotent_and_busy
    ⟨0, false, false, [5], [⟨5, 42, nullUUID, true, ""⟩]⟩ 5 true
    (by decide) (by decide) rfl
  exact ⟨h.1, h.2.1 (by decide), h.2.2⟩

/-- C4: when listing id `L` is already bound to folder `F1` (a cache record
carries it, and folder ids are never the null sentinel), an
`associateListing(F2, L)` for a different folder `F2` fails synchronously —
it returns `false`, issues no remote call, and leaves the whole state,
cache and pending set included, unchanged. -/
theorem c4_associate_already_bound (s : LLMarketplaceData)
    (F1 F2 : LLUUID) (L : Int) (t : LLMarketplaceTuple)
    (ht : t ∈ s.mMarketplaceItems) (hid : t.mListingId = L)
    (_hf : t.mListingFolderId = F1)
    (hwf : ∀ r ∈ s.mMarketplaceItems, r.mListingFolderId ≠ nullUUID)
    (_hdiff : F2 ≠ F1) :
    associateListing s F2 L = (false, s, []) := by
  unfold associateListing
  cases hl : isListed s.mMarketplaceItems F2 with
  | true => simp [hl]
  | false =>
    have hbound : (getListingFolder s.mMarketplaceItems L != nullUUID) =
        true := by
      unfold getListingFolder
      cases hfind : s.mMarketplaceItems.find? (fun r =>
          r.mListingId == L) with
      | none =>
        exfalso
        rw [List.find?_eq_none] at hfind
        exact hfind t ht (by simp [hid])
      | some r =>
        have hmem := List.mem_of_find?_eq_some hfind
        simpa using hwf r hmem
    simp [hbound]

/-- C4 witness: the already-bound rejection on a concrete state whose cache
binds listing 42 to folder 1, probed with folder 2. -/
theorem c4_associate_already_bound_witness :
    associateListing ⟨3, false, false, [], [⟨1, 42, nullUUID, true, ""⟩]⟩
        2 42 =
      (false, ⟨3, false, false, [], [⟨1, 42, nullUUID, true, ""⟩]⟩, []) :=
  c4_associate_already_bound
    ⟨3, false, false, [], [⟨1, 42, nullUUID, true, ""⟩]⟩ 1 2 42
    ⟨1, 42, nullUUID, true, ""⟩ (by decide) rfl rfl (by decide) (by decide)

/-- Modelled from the spec (implementation file missing): the state the
`LLMarketplaceData` constructor establishes — cache created empty at
session start, no pending folder, flags clear, status not-initialized. -/
def initialState : LLMarketplaceData :=
  ⟨MarketplaceStatusCodes.MARKET_PLACE_NOT_INITIALIZED, false, false, [],
    []⟩

/-- Modelled from the spec (implementation file missing): one transition of
the sync protocol driver.  The four status transitions are the only ones
that go through the private `setSLMStatus`, and they only ever write
initializing, connection-failure, merchant or not-merchant; every other
transition is a cache, dirty-flag or pending-set mutation. -/
inductive DriverStep : LLMarketplaceData → LLMarketplaceData → Prop where
  | stepStartSLM (s : LLMarketplaceData) :
      DriverStep s
        (setSLMStatus s MarketplaceStatusCodes.MARKET_PLACE_INITIALIZING)
  | stepConnectionFailure (s : LLMarketplaceData) :
      DriverStep s
        (setSLMStatus s
          MarketplaceStatusCodes.MARKET_PLACE_CONNECTION_FAILURE)
  | stepMerchant (s : LLMarketplaceData) :
      DriverStep s
        (setSLMStatus s MarketplaceStatusCodes.MARKET_PLACE_MERCHANT)
  | stepNotMerchant (s : LLMarketplaceData) :
      DriverStep s
        (setSLMStatus s MarketplaceStatusCodes.MARKET_PLACE_NOT_MERCHANT)
  | stepCheckDirty (s : LLMarketplaceData) :
      DriverStep s (checkDirtyCount s).2
  | stepSetDirty (s : LLMarketplaceData) : DriverStep s (setDirtyCount s)
  | stepSetUpdatingGlobal (s : LLMarketplaceData) (u : Bool) :
      DriverStep s (setUpdating s u)
  | stepSetUpdatingFolder (s : LLMarketplaceData) (f : LLUUID) (u : Bool) :
      DriverStep s (setUpdatingFolder s f u)
  | stepAddListing (s : LLMarketplaceData) (f : LLUUID) (l : Int)
      (v : LLUUID) (a : Bool) :
      DriverStep s
        { s with mMarketplaceItems := upsert s.mMarketplaceItems f l v a }
  | stepDeleteListing (s : LLMarketplaceData) (f : LLUUID) :
      DriverStep s
        { s with mMarketplaceItems :=
            removeListing s.mMarketplaceItems f }
  | stepSetListingID (s : LLMarketplaceData) (f : LLUUID) (l : Int) :
      DriverStep s
        { s with mMarketplaceItems :=
            (setListingID s.mMarketplaceItems f l).2 }
  | stepGetListings (s : LLMarketplaceData)
      (server : List LLMarketplaceTuple) :
      DriverStep s
        { s with mMarketplaceItems :=
            getSLMListings s.mMarketplaceItems server }
  | stepAssociate (s : LLMarketplaceData) (f : LLUUID) (l : Int) :
      DriverStep s (associateListing s f l).2.1
  | stepActivate (s : LLMarketplaceData) (f : LLUUID) (a : Bool) :
      DriverStep s (activateListing s f a).2.1

/-- The states the driver can reach from the session-start state. -/
inductive Reachable : LLMarketplaceData → Prop where
  | init : Reachable initialState
  | step {s t : LLMarketplaceData} : Reachable s → DriverStep s t →
      Reachable t

theorem status_setUpdatingFolder (s : LLMarketplaceData) (f : LLUUID)
    (u : Bool) :
    (setUpdatingFolder s f u).mMarketPlaceStatus = s.mMarketPlaceStatus := by
  unfold setUpdatingFolder
  cases u with
  | true => cases hc : s.mPendingUpdateSet.contains f <;> simp [hc]
  | false => simp

theorem status_associateListing (s : LLMarketplaceData) (f : LLUUID)
    (l : Int) :
    (associateListing s f l).2.1.mMarketPlaceStatus =
      s.mMarketPlaceStatus := by
  unfold associateListing
  cases h1 : isListed s.mMarketplaceItems f with
  | true => simp [h1]
  | false =>
    cases h2 : (getListingFolder s.mMarketplaceItems l != nullUUID) with
    | true => simp [h1, h2]
    | false =>
      cases h3 : isUpdating s f with
      | true => simp [h1, h2, h3]
      | false => simp [h1, h2, h3, status_setUpdatingFolder]

theorem status_activateListing (s : LLMarketplaceData) (f : LLUUID)
    (a : Bool) :
    (activateListing s f a).2.1.mMarketPlaceStatus =
      s.mMarketPlaceStatus := by
  unfold activateListing
  cases h1 : isListed s.mMarketplaceItems f with
  | false => simp [h1]
  | true =>
    cases h3 : isUpdating s f with
    | true => simp [h1, h3]
    | false => simp [h1, h3, status_setUpdatingFolder]

theorem driverStep_status {s1 s2 : LLMarketplaceData}
    (hd : DriverStep s1 s2) :
    getSLMStatus s2 = getSLMStatus s1 ∨
      ∃ c ∈ MarketplaceStatusCodes.statusCodeValues,
        s2 = setSLMStatus s1 c := by
  cases hd with
  | stepStartSLM => exact Or.inr ⟨_, by decide, rfl⟩
  | stepConnectionFailure => exact Or.inr ⟨_, by decide, rfl⟩
  | stepMerchant => exact Or.inr ⟨_, by decide, rfl⟩
  | stepNotMerchant => exact Or.inr ⟨_, by decide, rfl⟩
  | stepCheckDirty =>
    refine Or.inl ?_
    unfold getSLMStatus checkDirtyCount
    cases h : s1.mDirtyCount <;> simp [h]
  | stepSetDirty => exact Or.inl rfl
  | stepSetUpdatingGlobal u => exact Or.inl rfl
  | stepSetUpdatingFolder f u =>
    exact Or.inl (status_setUpdatingFolder s1 f u)
  | stepAddListing f l v a => exact Or.inl rfl
  | stepDeleteListing f => exact Or.inl rfl
  | stepSetListingID f l => exact Or.inl rfl
  | stepGetListings server => exact Or.inl rfl
  | stepAssociate f l => exact Or.inl (status_associateListing s1 f l)
  | stepActivate f a => exact Or.inl (status_activateListing s1 f a)

/-- C9: in every reachable state the process-wide status read back by
`getSLMStatus` is one of the exactly five `MarketplaceStatusCodes` values
(not-initialized 0, initializing 1, connection-failed 2, merchant 3,
not-merchant 4), and every driver transition either leaves the status
untouched or writes it through the private `setSLMStatus` with one of those
five values. -/
theorem c9_slm_status_invariant (s : LLMarketplaceData)
    (hs : Reachable s) :
    getSLMStatus s ∈ MarketplaceStatusCodes.statusCodeValues ∧
      ∀ s1 s2 : LLMarketplaceData, DriverStep s1 s2 →
        getSLMStatus s2 = getSLMStatus s1 ∨
          ∃ c ∈ MarketplaceStatusCodes.statusCodeValues,
            s2 = setSLMStatus s1 c := by
  refine ⟨?_, fun s1 s2 hd => driverStep_status hd⟩
  induction hs with
  | init => decide
  | step hr hd ih =>
    rcases driverStep_status hd with he | ⟨c, hc, he⟩
    · rw [he]; exact ih
    · rw [he]
      simpa [getSLMStatus, setSLMStatus] using hc

/-- C9 witness: the status invariant read off at the session-start state,
which is reachable by construction. -/
theorem c9_slm_status_invariant_witness :
    getSLMStatus initialState ∈ MarketplaceStatusCodes.statusCodeValues :=
  (c9_slm_status_invariant initialState Reachable.init).1

end Marketplace
